import Mathlib

/-!
Verification of the LMDB collection backend of ModSecurity
(src/collection/backend/lmdb.cc), as a shallow embedding.

Modelling choices, all traceable to the source file or to the documented
behaviour of the LMDB engine the source calls into:

* Keys and values are raw byte strings, modelled as `List Nat`
  (`string2val` passes `str.size()` bytes, so embedded NUL bytes are
  ordinary data at the engine level).
* The database table is opened with `MDB_DUPSORT` (see
  `MDBEnvProvider::MDBEnvProvider`), so the table is a sequence of
  (key, value) records, keys sorted by byte order, the duplicate values of
  one key sorted by byte order, and a given (key, value) pair stored at
  most once.  We model the table as the flat list of its records in
  storage (cursor) order, `Db`.
* `mdb_get` returns the first (smallest) duplicate of the key;
  `mdb_put` with flag 0 inserts the pair at its sorted position and is a
  successful no-op when the exact pair is already present;
  `mdb_del` with an explicit value removes exactly that (key, value) pair.
* Engine calls can also fail for environmental reasons (out of memory,
  disk full, read-only violation ...).  The code only ever tests the
  returned status against 0, so each fallible step is driven by a boolean
  success flag in a schedule `Sched`.
* `mdb_txn_commit` frees (aborts) the transaction even when it fails, per
  the LMDB API contract, so a failed commit still terminates the
  transaction.  Transaction-lifecycle events are recorded in a trace.
* `mdb_cursor_get(cursor, ..., MDB_NEXT_DUP)` on a freshly opened,
  unpositioned cursor behaves as `MDB_FIRST` (LMDB falls back to
  `mdb_cursor_first` when the cursor is not initialised); subsequent
  `MDB_NEXT_DUP` calls step to the next record while it has the same key.
* `resolveMultiMatches` compares keys with
  `strncmp(var.c_str(), (char *)key.mv_data, keySize)` and
  `resolveRegularExpression` hands `(char *)key.mv_data` to the regex as a
  C string, although `key.mv_data` is not NUL-terminated.  The bytes that
  follow a stored key in mapped memory are therefore observable; they are
  modelled by an explicit parameter `mem : Nat -> List Nat` (record index
  to trailing bytes), reads past the modelled window yielding 0.
* The compiled regular expression and the key-exclusion object are
  consumed as black boxes (`rx`, `ke : List Nat -> Bool`), as the spec
  directs.
-/

set_option autoImplicit false

namespace ModsecLMDB

/-- One stored record: a (key, value) pair of raw byte strings. -/
structure Entry where
  key : List Nat
  value : List Nat
deriving Repr, DecidableEq

/-- The table contents, as the list of records in storage (cursor) order. -/
abbrev Db := List Entry

/-- Byte-order comparison used by LMDB for keys and for duplicate values
(memcmp on the common length, then the shorter operand sorts first). -/
def byteLt : List Nat → List Nat → Bool
  | _, [] => false
  | [], _ :: _ => true
  | a :: as, b :: bs => if a < b then true else if a = b then byteLt as bs else false

/-- Storage order of records: by key, then by value within one key. -/
def entryLt (r s : Entry) : Bool :=
  if byteLt r.key s.key then true
  else if r.key = s.key then byteLt r.value s.value else false

/-- mdb_get: the value of the first (smallest) duplicate of the key,
or none when the key is absent (MDB_NOTFOUND). -/
def dbGet (k : List Nat) : Db → Option (List Nat)
  | [] => none
  | r :: rest => if r.key = k then some r.value else dbGet k rest

/-- mdb_put with flag 0 on a DUPSORT table: insert the pair at its sorted
position; storing an already-present exact pair succeeds without change. -/
def dbPut (k v : List Nat) : Db → Db
  | [] => [⟨k, v⟩]
  | r :: rest =>
    if entryLt r ⟨k, v⟩ then r :: dbPut k v rest
    else if r.key = k ∧ r.value = v then r :: rest
    else ⟨k, v⟩ :: r :: rest

/-- mdb_del with an explicit value: remove exactly that (key, value) pair. -/
def dbDel (k v : List Nat) : Db → Db
  | [] => []
  | r :: rest => if r.key = k ∧ r.value = v then rest else r :: dbDel k v rest

/-- Transaction-lifecycle events of one operation, in order. -/
inductive Event where
  /-- mdb_txn_begin returned 0: a transaction exists. -/
  | txnBegin
  /-- mdb_txn_begin was called and failed: no transaction exists. -/
  | txnBeginFail
  /-- mdb_txn_commit returned 0: the transaction committed. -/
  | txnCommitOk
  /-- mdb_txn_commit failed: the engine aborts and frees the transaction. -/
  | txnCommitFail
  /-- mdb_txn_abort was called. -/
  | txnAbort
deriving Repr, DecidableEq

/-- Success flags of the environment-driven engine steps of one call
(the code only ever compares the returned status with 0). -/
structure Sched where
  beginOk : Bool
  delOk : Bool
  putOk : Bool
  commitOk : Bool
  cursorOk : Bool
deriving Repr, DecidableEq

/-- The all-success schedule. -/
def allOk : Sched := ⟨true, true, true, true, true⟩

/-- Outcome of one backend operation: the value returned to the caller,
the table contents afterwards, and the transaction events. -/
structure OpResult (α : Type) where
  ret : α
  db : Db
  trace : List Event
deriving Repr

/-- LMDB::txn_begin: when the shared environment is invalid the function
returns -1 without calling mdb_txn_begin; otherwise mdb_txn_begin runs and
may fail.  Returns (a transaction was begun, events). -/
def txnBegin (valid : Bool) (s : Sched) : Bool × List Event :=
  if valid then
    if s.beginOk then (true, [Event.txnBegin]) else (false, [Event.txnBeginFail])
  else (false, [])

/-- LMDB::store: begin read-write txn, mdb_put, mdb_txn_commit; any
failing step jumps to the cleanup labels (abort when a transaction is
live and commit did not run).  The C++ function returns void. -/
def store (valid : Bool) (s : Sched) (key value : List Nat) (db : Db) :
    OpResult Unit :=
  match txnBegin valid s with
  | (false, t) => ⟨(), db, t⟩
  | (true, t) =>
    if s.putOk then
      if s.commitOk then ⟨(), dbPut key value db, t ++ [Event.txnCommitOk]⟩
      else ⟨(), db, t ++ [Event.txnCommitFail]⟩
    else ⟨(), db, t ++ [Event.txnAbort]⟩

/-- LMDB::storeOrUpdateFirst: begin read-write txn, mdb_get; on hit,
mdb_del the found pair (failure aborts); then mdb_put (failure aborts);
then mdb_txn_commit.  The function returns the literal `true` on every
path (`return true;`). -/
def storeOrUpdateFirst (valid : Bool) (s : Sched) (key value : List Nat)
    (db : Db) : OpResult Bool :=
  match txnBegin valid s with
  | (false, t) => ⟨true, db, t⟩
  | (true, t) =>
    match dbGet key db with
    | some v0 =>
      if s.delOk then
        if s.putOk then
          if s.commitOk then
            ⟨true, dbPut key value (dbDel key v0 db), t ++ [Event.txnCommitOk]⟩
          else ⟨true, db, t ++ [Event.txnCommitFail]⟩
        else ⟨true, db, t ++ [Event.txnAbort]⟩
      else ⟨true, db, t ++ [Event.txnAbort]⟩
    | none =>
      if s.putOk then
        if s.commitOk then ⟨true, dbPut key value db, t ++ [Event.txnCommitOk]⟩
        else ⟨true, db, t ++ [Event.txnCommitFail]⟩
      else ⟨true, db, t ++ [Event.txnAbort]⟩

/-- LMDB::updateFirst: begin read-write txn, mdb_get (failure aborts and
the call fails), mdb_del, mdb_put, mdb_txn_commit; returns `rc == 0`. -/
def updateFirst (valid : Bool) (s : Sched) (key value : List Nat)
    (db : Db) : OpResult Bool :=
  match txnBegin valid s with
  | (false, t) => ⟨false, db, t⟩
  | (true, t) =>
    match dbGet key db with
    | none => ⟨false, db, t ++ [Event.txnAbort]⟩
    | some v0 =>
      if s.delOk then
        if s.putOk then
          if s.commitOk then
            ⟨true, dbPut key value (dbDel key v0 db), t ++ [Event.txnCommitOk]⟩
          else ⟨false, db, t ++ [Event.txnCommitFail]⟩
        else ⟨false, db, t ++ [Event.txnAbort]⟩
      else ⟨false, db, t ++ [Event.txnAbort]⟩

/-- LMDB::del: begin read-write txn, mdb_get (a miss aborts and returns,
treated as nothing-to-delete), mdb_del the found pair, mdb_txn_commit.
The C++ function returns void. -/
def del (valid : Bool) (s : Sched) (key : List Nat) (db : Db) :
    OpResult Unit :=
  match txnBegin valid s with
  | (false, t) => ⟨(), db, t⟩
  | (true, t) =>
    match dbGet key db with
    | none => ⟨(), db, t ++ [Event.txnAbort]⟩
    | some v0 =>
      if s.delOk then
        if s.commitOk then ⟨(), dbDel key v0 db, t ++ [Event.txnCommitOk]⟩
        else ⟨(), db, t ++ [Event.txnCommitFail]⟩
      else ⟨(), db, t ++ [Event.txnAbort]⟩

/-- LMDB::resolveFirst: begin read-only txn, mdb_get, copy the value out,
then mdb_txn_abort on both the hit and the miss path. -/
def resolveFirst (valid : Bool) (s : Sched) (key : List Nat) (db : Db) :
    OpResult (Option (List Nat)) :=
  match txnBegin valid s with
  | (false, t) => ⟨none, db, t⟩
  | (true, t) => ⟨dbGet key db, db, t ++ [Event.txnAbort]⟩

/-- The values collected by the MDB_NEXT_DUP loop of resolveSingleMatch:
the first cursor step falls back to the first record of the whole table,
and each further MDB_NEXT_DUP yields the next record while its key equals
the current one. -/
def firstDupValues : Db → List (List Nat)
  | [] => []
  | r :: rest => r.value :: (rest.takeWhile fun q => q.key = r.key).map Entry.value

/-- LMDB::resolveSingleMatch: begin read-only txn, open a cursor and loop
on MDB_NEXT_DUP without ever positioning the cursor at the requested key;
each hit is returned as a VariableValue named after the requested key.
Cursor close and mdb_txn_abort end every path (the mdb_cursor_open status
is not checked by the source). -/
def resolveSingleMatch (valid : Bool) (s : Sched) (var : List Nat)
    (db : Db) : OpResult (List (List Nat × List Nat)) :=
  match txnBegin valid s with
  | (false, t) => ⟨[], db, t⟩
  | (true, t) => ⟨(firstDupValues db).map (fun v => (var, v)), db,
      t ++ [Event.txnAbort]⟩

/-- Result of C strncmp(s1, s2, n) compared with 0, where both operands
are byte streams: positions past the end of a list read 0 (for the first
operand this is the NUL terminator of `c_str()`; for the second it models
the memory beyond the modelled window). -/
def strncmpEq : List Nat → List Nat → Nat → Bool
  | _, _, 0 => true
  | p, k, Nat.succ n =>
    if p.headD 0 = k.headD 0 then
      if p.headD 0 = 0 then true else strncmpEq p.tail k.tail n
    else false

/-- Spec-side predicate, from the spec words: `startsWith p k` holds when
key `k` begins with the byte sequence `p` as a byte-for-byte prefix. -/
def startsWith : List Nat → List Nat → Bool
  | [], _ => true
  | _ :: _, [] => false
  | a :: p, b :: k => if a = b then startsWith p k else false

/-- The cursor scan of resolveMultiMatches for a non-empty prefix: each
record whose key passes `strncmp(var.c_str(), key.mv_data, keySize) == 0`
is collected; `mem i` gives the bytes that follow record i's key in
mapped memory. -/
def scanKeys (p : List Nat) (mem : Nat → List Nat) :
    Nat → Db → List (List Nat × List Nat)
  | _, [] => []
  | i, r :: rest =>
    if strncmpEq p (r.key ++ mem i) p.length
    then (r.key, r.value) :: scanKeys p mem (i + 1) rest
    else scanKeys p mem (i + 1) rest

/-- LMDB::resolveMultiMatches: begin read-only txn, open a cursor
(failure aborts); with an empty prefix every record is collected, else
the strncmp filter runs; every match is inserted at the front of the
output, so the result is the reverse of the scan order.  The KeyExclusions
argument `ke` is received but never consulted.  Ends with cursor close
and mdb_txn_abort. -/
def resolveMultiMatches (valid : Bool) (s : Sched) (p : List Nat)
    (db : Db) (mem : Nat → List Nat) (ke : List Nat → Bool) :
    OpResult (List (List Nat × List Nat)) :=
  match txnBegin valid s with
  | (false, t) => ⟨[], db, t⟩
  | (true, t) =>
    if s.cursorOk then
      if p.length = 0 then
        ⟨(db.map fun r => (r.key, r.value)).reverse, db, t ++ [Event.txnAbort]⟩
      else
        ⟨(scanKeys p mem 0 db).reverse, db, t ++ [Event.txnAbort]⟩
    else ⟨[], db, t ++ [Event.txnAbort]⟩

/-- The key bytes as the regex sees them: `(char *)key.mv_data` converted
to a C string reads from the start of the key up to the first NUL byte,
running past the key's end into the following memory bytes `m` when the
key holds no NUL. -/
def cstrKey (k m : List Nat) : List Nat := (k ++ m).takeWhile fun b => b ≠ 0

/-- The cursor scan of resolveRegularExpression: skip when the regex does
not match the C-string view of the key, skip when the exclusion predicate
omits the (length-delimited) key, collect otherwise. -/
def scanRegex (rx ke : List Nat → Bool) (mem : Nat → List Nat) :
    Nat → Db → List (List Nat × List Nat)
  | _, [] => []
  | i, r :: rest =>
    if rx (cstrKey r.key (mem i)) && ! ke r.key
    then (r.key, r.value) :: scanRegex rx ke mem (i + 1) rest
    else scanRegex rx ke mem (i + 1) rest

/-- LMDB::resolveRegularExpression: begin read-only txn, open a cursor
(failure aborts), scan every record with the compiled pattern `rx` and
the exclusion predicate `ke`; matches are inserted at the front of the
output (reverse of scan order).  Ends with cursor close and
mdb_txn_abort. -/
def resolveRegularExpression (valid : Bool) (s : Sched)
    (rx ke : List Nat → Bool) (db : Db) (mem : Nat → List Nat) :
    OpResult (List (List Nat × List Nat)) :=
  match txnBegin valid s with
  | (false, t) => ⟨[], db, t⟩
  | (true, t) =>
    if s.cursorOk then
      ⟨(scanRegex rx ke mem 0 db).reverse, db, t ++ [Event.txnAbort]⟩
    else ⟨[], db, t ++ [Event.txnAbort]⟩

/-- MDBEnvProvider: the constructor opens the environment and records
validity as `rc == 0`; isValid() reports that flag. -/
def providerValid (openRc : Int) : Bool := openRc == 0

/-- Number of transactions begun in a trace. -/
def begins (t : List Event) : Nat := t.count Event.txnBegin

/-- Number of transaction terminations in a trace: aborts plus commit
calls (a failed mdb_txn_commit also frees the transaction). -/
def terms (t : List Event) : Nat :=
  t.count Event.txnAbort + t.count Event.txnCommitOk + t.count Event.txnCommitFail

/-- Number of successful commits in a trace. -/
def commitsOk (t : List Event) : Nat := t.count Event.txnCommitOk

/-- A trace shows a successful commit. -/
def committed (t : List Event) : Bool := t.contains Event.txnCommitOk

/-- Spec-side notion: the duplicate set of a key, the values of the
records stored under it, in storage order. -/
def dupSet (k : List Nat) (db : Db) : List (List Nat) :=
  (db.filter fun r => r.key = k).map Entry.value

theorem dbGet_eq_none (k : List Nat) (db : Db) :
    dbGet k db = none ↔ ∀ r ∈ db, r.key ≠ k := by
  induction db with
  | nil => simp [dbGet]
  | cons r rest ih =>
    by_cases hk : r.key = k <;> simp [dbGet, hk, ih]

theorem dbGet_dbPut_of_absent (k v : List Nat) (db : Db)
    (h : dbGet k db = none) : dbGet k (dbPut k v db) = some v := by
  induction db with
  | nil => simp [dbPut, dbGet]
  | cons r rest ih =>
    rw [dbGet] at h
    by_cases hk : r.key = k
    · simp [hk] at h
    · rw [if_neg hk] at h
      rw [dbPut]
      by_cases hlt : entryLt r ⟨k, v⟩ = true
      · rw [if_pos hlt, dbGet, if_neg hk]
        exact ih h
      · rw [if_neg hlt, if_neg (fun hh => hk hh.1)]
        simp [dbGet]

theorem mem_dbPut_of_mem (k v : List Nat) (r : Entry) (db : Db)
    (h : r ∈ db) : r ∈ dbPut k v db := by
  induction db with
  | nil => cases h
  | cons q rest ih =>
    rw [dbPut]
    by_cases hlt : entryLt q ⟨k, v⟩ = true
    · rw [if_pos hlt]
      rcases List.mem_cons.mp h with rfl | hr
      · exact List.mem_cons_self _ _
      · exact List.mem_cons_of_mem _ (ih hr)
    · rw [if_neg hlt]
      by_cases he : q.key = k ∧ q.value = v
      · rw [if_pos he]; exact h
      · rw [if_neg he]; exact List.mem_cons_of_mem _ h

theorem self_mem_dbPut (k v : List Nat) (db : Db) :
    Entry.mk k v ∈ dbPut k v db := by
  induction db with
  | nil => simp [dbPut]
  | cons q rest ih =>
    rw [dbPut]
    by_cases hlt : entryLt q ⟨k, v⟩ = true
    · rw [if_pos hlt]; exact List.mem_cons_of_mem _ ih
    · rw [if_neg hlt]
      by_cases he : q.key = k ∧ q.value = v
      · rw [if_pos he]
        have hq : q = Entry.mk k v := by
          cases q with
          | mk a b => cases he.1; cases he.2; rfl
        rw [hq]
        exact List.mem_cons_self _ _
      · rw [if_neg he]; exact List.mem_cons_self _ _

theorem dbGet_dbDel_of_le_one (k v0 : List Nat) (db : Db)
    (hg : dbGet k db = some v0)
    (hc : (db.filter fun r => r.key = k).length ≤ 1) :
    dbGet k (dbDel k v0 db) = none := by
  induction db with
  | nil => cases hg
  | cons r rest ih =>
    by_cases hk : r.key = k
    · rw [dbGet, if_pos hk] at hg
      injection hg with hv
      rw [dbDel, if_pos ⟨hk, hv⟩]
      have hcc : (r :: rest.filter (fun r => decide (r.key = k))).length ≤ 1 := by
        rw [List.filter_cons] at hc
        simpa [hk] using hc
      have hlen : (rest.filter (fun r => decide (r.key = k))).length = 0 := by
        rw [List.length_cons] at hcc
        omega
      have hrest : rest.filter (fun r => decide (r.key = k)) = [] :=
        List.length_eq_zero.mp hlen
      rw [dbGet_eq_none]
      intro q hq hqk
      have hmem : q ∈ rest.filter (fun r => decide (r.key = k)) :=
        List.mem_filter.mpr ⟨hq, by simp [hqk]⟩
      rw [hrest] at hmem
      cases hmem
    · rw [dbGet, if_neg hk] at hg
      rw [dbDel, if_neg (fun hh => hk hh.1), dbGet, if_neg hk]
      apply ih hg
      rw [List.filter_cons] at hc
      simpa [hk] using hc

theorem store_balance (valid : Bool) (s : Sched) (k v : List Nat) (db : Db) :
    begins (store valid s k v db).trace = terms (store valid s k v db).trace := by
  obtain ⟨b, d, pu, c, cu⟩ := s
  cases valid <;> cases b <;> cases pu <;> cases c <;> rfl

theorem store_le_one (valid : Bool) (s : Sched) (k v : List Nat) (db : Db) :
    begins (store valid s k v db).trace ≤ 1 := by
  obtain ⟨b, d, pu, c, cu⟩ := s
  cases valid <;> cases b <;> cases pu <;> cases c <;>
    first | exact Nat.le_refl 1 | exact Nat.zero_le 1

theorem store_db_of_not_committed (valid : Bool) (s : Sched) (k v : List Nat)
    (db : Db) (h : committed (store valid s k v db).trace = false) :
    (store valid s k v db).db = db := by
  obtain ⟨b, d, pu, c, cu⟩ := s
  revert h
  cases valid <;> cases b <;> cases pu <;> cases c <;> intro h <;>
    first | rfl | exact Bool.noConfusion (show true = false from h)

theorem store_db_of_committed (valid : Bool) (s : Sched) (k v : List Nat)
    (db : Db) (h : committed (store valid s k v db).trace = true) :
    (store valid s k v db).db = dbPut k v db := by
  obtain ⟨b, d, pu, c, cu⟩ := s
  revert h
  cases valid <;> cases b <;> cases pu <;> cases c <;> intro h <;>
    first | rfl | exact Bool.noConfusion (show false = true from h)

theorem storeOrUpdateFirst_ret (valid : Bool) (s : Sched) (k v : List Nat)
    (db : Db) : (storeOrUpdateFirst valid s k v db).ret = true := by
  obtain ⟨b, d, pu, c, cu⟩ := s
  cases hg : dbGet k db <;>
    cases valid <;> cases b <;> cases d <;> cases pu <;> cases c <;>
      simp [storeOrUpdateFirst, txnBegin, hg]

theorem storeOrUpdateFirst_balance (valid : Bool) (s : Sched) (k v : List Nat)
    (db : Db) : begins (storeOrUpdateFirst valid s k v db).trace
      = terms (storeOrUpdateFirst valid s k v db).trace := by
  obtain ⟨b, d, pu, c, cu⟩ := s
  cases hg : dbGet k db <;>
    cases valid <;> cases b <;> cases d <;> cases pu <;> cases c <;>
      simp [storeOrUpdateFirst, txnBegin, hg, begins, terms]

theorem storeOrUpdateFirst_le_one (valid : Bool) (s : Sched) (k v : List Nat)
    (db : Db) : begins (storeOrUpdateFirst valid s k v db).trace ≤ 1 := by
  obtain ⟨b, d, pu, c, cu⟩ := s
  cases hg : dbGet k db <;>
    cases valid <;> cases b <;> cases d <;> cases pu <;> cases c <;>
      simp [storeOrUpdateFirst, txnBegin, hg, begins]

theorem storeOrUpdateFirst_db_of_not_committed (valid : Bool) (s : Sched)
    (k v : List Nat) (db : Db)
    (h : committed (storeOrUpdateFirst valid s k v db).trace = false) :
    (storeOrUpdateFirst valid s k v db).db = db := by
  obtain ⟨b, d, pu, c, cu⟩ := s
  revert h
  cases hg : dbGet k db <;>
    cases valid <;> cases b <;> cases d <;> cases pu <;> cases c <;>
      simp [storeOrUpdateFirst, txnBegin, hg, committed]

theorem updateFirst_ret_eq_committed (valid : Bool) (s : Sched)
    (k v : List Nat) (db : Db) :
    (updateFirst valid s k v db).ret
      = committed (updateFirst valid s k v db).trace := by
  obtain ⟨b, d, pu, c, cu⟩ := s
  cases hg : dbGet k db <;>
    cases valid <;> cases b <;> cases d <;> cases pu <;> cases c <;>
      simp [updateFirst, txnBegin, hg, committed]

theorem updateFirst_balance (valid : Bool) (s : Sched) (k v : List Nat)
    (db : Db) : begins (updateFirst valid s k v db).trace
      = terms (updateFirst valid s k v db).trace := by
  obtain ⟨b, d, pu, c, cu⟩ := s
  cases hg : dbGet k db <;>
    cases valid <;> cases b <;> cases d <;> cases pu <;> cases c <;>
      simp [updateFirst, txnBegin, hg, begins, terms]

theorem updateFirst_le_one (valid : Bool) (s : Sched) (k v : List Nat)
    (db : Db) : begins (updateFirst valid s k v db).trace ≤ 1 := by
  obtain ⟨b, d, pu, c, cu⟩ := s
  cases hg : dbGet k db <;>
    cases valid <;> cases b <;> cases d <;> cases pu <;> cases c <;>
      simp [updateFirst, txnBegin, hg, begins]

theorem updateFirst_db_of_not_committed (valid : Bool) (s : Sched)
    (k v : List Nat) (db : Db)
    (h : committed (updateFirst valid s k v db).trace = false) :
    (updateFirst valid s k v db).db = db := by
  obtain ⟨b, d, pu, c, cu⟩ := s
  revert h
  cases hg : dbGet k db <;>
    cases valid <;> cases b <;> cases d <;> cases pu <;> cases c <;>
      simp [updateFirst, txnBegin, hg, committed]

theorem del_balance (valid : Bool) (s : Sched) (k : List Nat) (db : Db) :
    begins (del valid s k db).trace = terms (del valid s k db).trace := by
  obtain ⟨b, d, pu, c, cu⟩ := s
  cases hg : dbGet k db <;>
    cases valid <;> cases b <;> cases d <;> cases c <;>
      simp [del, txnBegin, hg, begins, terms]

theorem del_le_one (valid : Bool) (s : Sched) (k : List Nat) (db : Db) :
    begins (del valid s k db).trace ≤ 1 := by
  obtain ⟨b, d, pu, c, cu⟩ := s
  cases hg : dbGet k db <;>
    cases valid <;> cases b <;> cases d <;> cases c <;>
      simp [del, txnBegin, hg, begins]

theorem del_db_of_not_committed (valid : Bool) (s : Sched) (k : List Nat)
    (db : Db) (h : committed (del valid s k db).trace = false) :
    (del valid s k db).db = db := by
  obtain ⟨b, d, pu, c, cu⟩ := s
  revert h
  cases hg : dbGet k db <;>
    cases valid <;> cases b <;> cases d <;> cases c <;>
      simp [del, txnBegin, hg, committed]

theorem resolveFirst_db (valid : Bool) (s : Sched) (k : List Nat) (db : Db) :
    (resolveFirst valid s k db).db = db := by
  obtain ⟨b, d, pu, c, cu⟩ := s
  cases valid <;> cases b <;> rfl

theorem resolveFirst_readonly (valid : Bool) (s : Sched) (k : List Nat)
    (db : Db) :
    begins (resolveFirst valid s k db).trace
        = terms (resolveFirst valid s k db).trace ∧
      begins (resolveFirst valid s k db).trace ≤ 1 ∧
      commitsOk (resolveFirst valid s k db).trace = 0 ∧
      (resolveFirst valid s k db).trace.count Event.txnAbort
        = begins (resolveFirst valid s k db).trace := by
  obtain ⟨b, d, pu, c, cu⟩ := s
  cases valid <;> cases b <;>
    exact ⟨rfl, by first | exact Nat.le_refl 1 | exact Nat.zero_le 1, rfl, rfl⟩

theorem resolveSingleMatch_db (valid : Bool) (s : Sched) (k : List Nat)
    (db : Db) : (resolveSingleMatch valid s k db).db = db := by
  obtain ⟨b, d, pu, c, cu⟩ := s
  cases valid <;> cases b <;> rfl

theorem resolveSingleMatch_readonly (valid : Bool) (s : Sched) (k : List Nat)
    (db : Db) :
    begins (resolveSingleMatch valid s k db).trace
        = terms (resolveSingleMatch valid s k db).trace ∧
      begins (resolveSingleMatch valid s k db).trace ≤ 1 ∧
      commitsOk (resolveSingleMatch valid s k db).trace = 0 ∧
      (resolveSingleMatch valid s k db).trace.count Event.txnAbort
        = begins (resolveSingleMatch valid s k db).trace := by
  obtain ⟨b, d, pu, c, cu⟩ := s
  cases valid <;> cases b <;>
    exact ⟨rfl, by first | exact Nat.le_refl 1 | exact Nat.zero_le 1, rfl, rfl⟩

theorem resolveMultiMatches_db (valid : Bool) (s : Sched) (p : List Nat)
    (db : Db) (mem : Nat → List Nat) (ke : List Nat → Bool) :
    (resolveMultiMatches valid s p db mem ke).db = db := by
  obtain ⟨b, d, pu, c, cu⟩ := s
  cases valid <;> cases b <;> cases cu <;>
    first
    | rfl
    | (show (if p.length = 0 then _ else _ : OpResult _).db = db
       by_cases hp : p.length = 0 <;> simp [hp])

theorem resolveMultiMatches_readonly (valid : Bool) (s : Sched) (p : List Nat)
    (db : Db) (mem : Nat → List Nat) (ke : List Nat → Bool) :
    begins (resolveMultiMatches valid s p db mem ke).trace
        = terms (resolveMultiMatches valid s p db mem ke).trace ∧
      begins (resolveMultiMatches valid s p db mem ke).trace ≤ 1 ∧
      commitsOk (resolveMultiMatches valid s p db mem ke).trace = 0 ∧
      (resolveMultiMatches valid s p db mem ke).trace.count Event.txnAbort
        = begins (resolveMultiMatches valid s p db mem ke).trace := by
  obtain ⟨b, d, pu, c, cu⟩ := s
  cases valid <;> cases b <;> cases cu <;>
    first
    | exact ⟨rfl, by first | exact Nat.le_refl 1 | exact Nat.zero_le 1, rfl, rfl⟩
    | (by_cases hp : p.length = 0 <;>
        simp [resolveMultiMatches, txnBegin, hp, begins, terms, commitsOk])

theorem resolveRegularExpression_db (valid : Bool) (s : Sched)
    (rx ke : List Nat → Bool) (db : Db) (mem : Nat → List Nat) :
    (resolveRegularExpression valid s rx ke db mem).db = db := by
  obtain ⟨b, d, pu, c, cu⟩ := s
  cases valid <;> cases b <;> cases cu <;> rfl

theorem resolveRegularExpression_readonly (valid : Bool) (s : Sched)
    (rx ke : List Nat → Bool) (db : Db) (mem : Nat → List Nat) :
    begins (resolveRegularExpression valid s rx ke db mem).trace
        = terms (resolveRegularExpression valid s rx ke db mem).trace ∧
      begins (resolveRegularExpression valid s rx ke db mem).trace ≤ 1 ∧
      commitsOk (resolveRegularExpression valid s rx ke db mem).trace = 0 ∧
      (resolveRegularExpression valid s rx ke db mem).trace.count Event.txnAbort
        = begins (resolveRegularExpression valid s rx ke db mem).trace := by
  obtain ⟨b, d, pu, c, cu⟩ := s
  cases valid <;> cases b <;> cases cu <;>
    exact ⟨rfl, by first | exact Nat.le_refl 1 | exact Nat.zero_le 1, rfl, rfl⟩

theorem strncmpEq_eq_startsWith (p : List Nat) :
    ∀ (k m : List Nat), (∀ b ∈ p, b ≠ 0) →
      ¬ (startsWith k p = true ∧ k.length < p.length) →
      strncmpEq p (k ++ m) p.length = startsWith p k := by
  induction p with
  | nil => intro k m _ _; rfl
  | cons a p ih =>
    intro k m hp hk
    have ha : a ≠ 0 := hp a (List.mem_cons_self a p)
    cases k with
    | nil =>
      exact absurd ⟨rfl, by simp⟩ hk
    | cons b k2 =>
      simp only [List.cons_append, List.length_cons, strncmpEq, List.headD_cons,
        List.tail_cons, startsWith]
      by_cases hab : a = b
      · rw [if_pos hab, if_pos hab, if_neg ha]
        apply ih k2 m (fun x hx => hp x (List.mem_cons_of_mem a hx))
        rintro ⟨hpre, hlen⟩
        apply hk
        refine ⟨?_, by simpa using Nat.succ_lt_succ hlen⟩
        show startsWith (b :: k2) (a :: p) = true
        rw [startsWith, if_pos hab.symm]
        exact hpre
      · rw [if_neg hab, if_neg hab]

theorem scanKeys_eq_filter (p : List Nat) (mem : Nat → List Nat)
    (hp : ∀ b ∈ p, b ≠ 0) :
    ∀ (db : Db) (i : Nat),
      (∀ r ∈ db, ¬ (startsWith r.key p = true ∧ r.key.length < p.length)) →
      scanKeys p mem i db
        = (db.filter fun r => startsWith p r.key).map fun r => (r.key, r.value) := by
  intro db
  induction db with
  | nil => intro i _; rfl
  | cons r rest ih =>
    intro i hdb
    rw [scanKeys,
      strncmpEq_eq_startsWith p r.key (mem i) hp (hdb r (List.mem_cons_self r rest)),
      List.filter_cons]
    have ihr := ih (i + 1) (fun q hq => hdb q (List.mem_cons_of_mem r hq))
    by_cases hsw : startsWith p r.key = true <;> simp [hsw, ihr]

theorem cstrKey_eq_self (k m : List Nat) (hk : (0 : Nat) ∉ k)
    (hm : m.headD 0 = 0) : cstrKey k m = k := by
  induction k with
  | nil =>
    cases m with
    | nil => rfl
    | cons b m2 =>
      have hb : b = 0 := by simpa using hm
      simp [cstrKey, hb]
  | cons a k2 ih =>
    have ha : a ≠ 0 := by
      intro h
      exact hk (by rw [← h]; exact List.mem_cons_self a k2)
    have hk2 : (0 : Nat) ∉ k2 := fun h => hk (List.mem_cons_of_mem a h)
    rw [cstrKey, List.cons_append, List.takeWhile_cons, if_pos (decide_eq_true ha)]
    show a :: cstrKey k2 m = a :: k2
    rw [ih hk2]

theorem scanRegex_excluded (rx ke : List Nat → Bool) (mem : Nat → List Nat) :
    ∀ (db : Db) (i : Nat) (e : List Nat × List Nat),
      e ∈ scanRegex rx ke mem i db → ke e.1 = false := by
  intro db
  induction db with
  | nil => intro i e he; cases he
  | cons r rest ih =>
    intro i e he
    rw [scanRegex] at he
    by_cases hc : (rx (cstrKey r.key (mem i)) && ! ke r.key) = true
    · rw [if_pos hc] at he
      rcases List.mem_cons.mp he with rfl | he2
      · have := (Bool.and_eq_true_iff.mp hc).2
        simpa using this
      · exact ih (i + 1) e he2
    · rw [if_neg hc] at he
      exact ih (i + 1) e he

theorem scanRegex_eq_filter (rx ke : List Nat → Bool) (mem : Nat → List Nat)
    (hm : ∀ j, (mem j).headD 0 = 0) :
    ∀ (db : Db) (i : Nat), (∀ r ∈ db, (0 : Nat) ∉ r.key) →
      scanRegex rx ke mem i db
        = (db.filter fun r => rx r.key && ! ke r.key).map fun r => (r.key, r.value) := by
  intro db
  induction db with
  | nil => intro i _; rfl
  | cons r rest ih =>
    intro i hdb
    rw [scanRegex,
      cstrKey_eq_self r.key (mem i) (hdb r (List.mem_cons_self r rest)) (hm i),
      List.filter_cons]
    have ihr := ih (i + 1) (fun q hq => hdb q (List.mem_cons_of_mem r hq))
    by_cases hc : (rx r.key && ! ke r.key) = true <;> simp [hc, ihr]

theorem store_mode (valid : Bool) (s : Sched) (k v : List Nat) (db : Db) :
    (committed (store valid s k v db).trace = true →
      commitsOk (store valid s k v db).trace = 1
      ∧ (store valid s k v db).trace.count Event.txnAbort = 0
      ∧ (store valid s k v db).trace.count Event.txnCommitFail = 0) ∧
    (committed (store valid s k v db).trace = false →
      commitsOk (store valid s k v db).trace = 0
      ∧ (store valid s k v db).trace.count Event.txnAbort
          + (store valid s k v db).trace.count Event.txnCommitFail
          = begins (store valid s k v db).trace) := by
  obtain ⟨b, d, pu, c, cu⟩ := s
  cases valid <;> cases b <;> cases pu <;> cases c <;>
    refine ⟨fun h => ?_, fun h => ?_⟩ <;>
      first
      | exact ⟨rfl, rfl, rfl⟩
      | exact ⟨rfl, rfl⟩
      | exact Bool.noConfusion (show true = false from h)
      | exact Bool.noConfusion (show false = true from h)

theorem storeOrUpdateFirst_mode (valid : Bool) (s : Sched) (k v : List Nat)
    (db : Db) :
    (committed (storeOrUpdateFirst valid s k v db).trace = true →
      commitsOk (storeOrUpdateFirst valid s k v db).trace = 1
      ∧ (storeOrUpdateFirst valid s k v db).trace.count Event.txnAbort = 0
      ∧ (storeOrUpdateFirst valid s k v db).trace.count Event.txnCommitFail = 0) ∧
    (committed (storeOrUpdateFirst valid s k v db).trace = false →
      commitsOk (storeOrUpdateFirst valid s k v db).trace = 0
      ∧ (storeOrUpdateFirst valid s k v db).trace.count Event.txnAbort
          + (storeOrUpdateFirst valid s k v db).trace.count Event.txnCommitFail
          = begins (storeOrUpdateFirst valid s k v db).trace) := by
  obtain ⟨b, d, pu, c, cu⟩ := s
  cases hg : dbGet k db <;>
    cases valid <;> cases b <;> cases d <;> cases pu <;> cases c <;>
      simp [storeOrUpdateFirst, txnBegin, hg, committed, commitsOk, begins,
        terms]

theorem updateFirst_mode (valid : Bool) (s : Sched) (k v : List Nat)
    (db : Db) :
    (committed (updateFirst valid s k v db).trace = true →
      commitsOk (updateFirst valid s k v db).trace = 1
      ∧ (updateFirst valid s k v db).trace.count Event.txnAbort = 0
      ∧ (updateFirst valid s k v db).trace.count Event.txnCommitFail = 0) ∧
    (committed (updateFirst valid s k v db).trace = false →
      commitsOk (updateFirst valid s k v db).trace = 0
      ∧ (updateFirst valid s k v db).trace.count Event.txnAbort
          + (updateFirst valid s k v db).trace.count Event.txnCommitFail
          = begins (updateFirst valid s k v db).trace) := by
  obtain ⟨b, d, pu, c, cu⟩ := s
  cases hg : dbGet k db <;>
    cases valid <;> cases b <;> cases d <;> cases pu <;> cases c <;>
      simp [updateFirst, txnBegin, hg, committed, commitsOk, begins, terms]

theorem del_mode (valid : Bool) (s : Sched) (k : List Nat) (db : Db) :
    (committed (del valid s k db).trace = true →
      commitsOk (del valid s k db).trace = 1
      ∧ (del valid s k db).trace.count Event.txnAbort = 0
      ∧ (del valid s k db).trace.count Event.txnCommitFail = 0) ∧
    (committed (del valid s k db).trace = false →
      commitsOk (del valid s k db).trace = 0
      ∧ (del valid s k db).trace.count Event.txnAbort
          + (del valid s k db).trace.count Event.txnCommitFail
          = begins (del valid s k db).trace) := by
  obtain ⟨b, d, pu, c, cu⟩ := s
  cases hg : dbGet k db <;>
    cases valid <;> cases b <;> cases d <;> cases c <;>
      simp [del, txnBegin, hg, committed, commitsOk, begins, terms]

theorem store_commit_on_success (k v : List Nat) (db : Db) :
    commitsOk (store true allOk k v db).trace = 1 := rfl

theorem storeOrUpdateFirst_commit_on_success (k v : List Nat) (db : Db) :
    commitsOk (storeOrUpdateFirst true allOk k v db).trace = 1 := by
  cases hg : dbGet k db <;>
    simp [storeOrUpdateFirst, txnBegin, allOk, hg, commitsOk]

theorem updateFirst_commit_on_success (k v v0 : List Nat) (db : Db)
    (hg : dbGet k db = some v0) :
    commitsOk (updateFirst true allOk k v db).trace = 1 := by
  simp [updateFirst, txnBegin, allOk, hg, commitsOk]

theorem del_commit_on_success (k v0 : List Nat) (db : Db)
    (hg : dbGet k db = some v0) :
    commitsOk (del true allOk k db).trace = 1 := by
  simp [del, txnBegin, allOk, hg, commitsOk]

/-- Claim C3: every transaction that any operation begins is terminated
exactly once before the operation returns, committed on the success path
of a mutating operation and aborted on every failure or early-return
path: a committed run of store, storeOrUpdateFirst, updateFirst or del
shows exactly one successful commit and no abort, a run that does not
commit shows no successful commit and exactly one abort per begun
transaction (a failed mdb_txn_commit itself aborting and freeing the
transaction per the LMDB API), and on an all-success schedule each
mutating operation does commit (for updateFirst and del: whenever the
lookup finds the key); the read-only transactions begun by resolveFirst,
resolveSingleMatch (resolveDuplicates), resolveMultiMatches
(resolveByPrefix) and resolveRegularExpression (resolveByPattern) are
always aborted and never committed. -/
theorem txn_terminated_once :
    (∀ valid s k v db, begins (store valid s k v db).trace
        = terms (store valid s k v db).trace
      ∧ begins (store valid s k v db).trace ≤ 1
      ∧ (committed (store valid s k v db).trace = true →
          commitsOk (store valid s k v db).trace = 1
          ∧ (store valid s k v db).trace.count Event.txnAbort = 0
          ∧ (store valid s k v db).trace.count Event.txnCommitFail = 0)
      ∧ (committed (store valid s k v db).trace = false →
          commitsOk (store valid s k v db).trace = 0
          ∧ (store valid s k v db).trace.count Event.txnAbort
              + (store valid s k v db).trace.count Event.txnCommitFail
              = begins (store valid s k v db).trace)) ∧
    (∀ k v db, commitsOk (store true allOk k v db).trace = 1) ∧
    (∀ valid s k v db, begins (storeOrUpdateFirst valid s k v db).trace
        = terms (storeOrUpdateFirst valid s k v db).trace
      ∧ begins (storeOrUpdateFirst valid s k v db).trace ≤ 1
      ∧ (committed (storeOrUpdateFirst valid s k v db).trace = true →
          commitsOk (storeOrUpdateFirst valid s k v db).trace = 1
          ∧ (storeOrUpdateFirst valid s k v db).trace.count Event.txnAbort = 0
          ∧ (storeOrUpdateFirst valid s k v db).trace.count
              Event.txnCommitFail = 0)
      ∧ (committed (storeOrUpdateFirst valid s k v db).trace = false →
          commitsOk (storeOrUpdateFirst valid s k v db).trace = 0
          ∧ (storeOrUpdateFirst valid s k v db).trace.count Event.txnAbort
              + (storeOrUpdateFirst valid s k v db).trace.count
                  Event.txnCommitFail
              = begins (storeOrUpdateFirst valid s k v db).trace)) ∧
    (∀ k v db, commitsOk (storeOrUpdateFirst true allOk k v db).trace = 1) ∧
    (∀ valid s k v db, begins (updateFirst valid s k v db).trace
        = terms (updateFirst valid s k v db).trace
      ∧ begins (updateFirst valid s k v db).trace ≤ 1
      ∧ (committed (updateFirst valid s k v db).trace = true →
          commitsOk (updateFirst valid s k v db).trace = 1
          ∧ (updateFirst valid s k v db).trace.count Event.txnAbort = 0
          ∧ (updateFirst valid s k v db).trace.count Event.txnCommitFail = 0)
      ∧ (committed (updateFirst valid s k v db).trace = false →
          commitsOk (updateFirst valid s k v db).trace = 0
          ∧ (updateFirst valid s k v db).trace.count Event.txnAbort
              + (updateFirst valid s k v db).trace.count Event.txnCommitFail
              = begins (updateFirst valid s k v db).trace)) ∧
    (∀ k v v0 db, dbGet k db = some v0 →
      commitsOk (updateFirst true allOk k v db).trace = 1) ∧
    (∀ valid s k db, begins (del valid s k db).trace
        = terms (del valid s k db).trace
      ∧ begins (del valid s k db).trace ≤ 1
      ∧ (committed (del valid s k db).trace = true →
          commitsOk (del valid s k db).trace = 1
          ∧ (del valid s k db).trace.count Event.txnAbort = 0
          ∧ (del valid s k db).trace.count Event.txnCommitFail = 0)
      ∧ (committed (del valid s k db).trace = false →
          commitsOk (del valid s k db).trace = 0
          ∧ (del valid s k db).trace.count Event.txnAbort
              + (del valid s k db).trace.count Event.txnCommitFail
              = begins (del valid s k db).trace)) ∧
    (∀ k v0 db, dbGet k db = some v0 →
      commitsOk (del true allOk k db).trace = 1) ∧
    (∀ valid s k db, begins (resolveFirst valid s k db).trace
        = terms (resolveFirst valid s k db).trace
      ∧ commitsOk (resolveFirst valid s k db).trace = 0
      ∧ (resolveFirst valid s k db).trace.count Event.txnAbort
          = begins (resolveFirst valid s k db).trace) ∧
    (∀ valid s k db, begins (resolveSingleMatch valid s k db).trace
        = terms (resolveSingleMatch valid s k db).trace
      ∧ commitsOk (resolveSingleMatch valid s k db).trace = 0
      ∧ (resolveSingleMatch valid s k db).trace.count Event.txnAbort
          = begins (resolveSingleMatch valid s k db).trace) ∧
    (∀ valid s p db mem ke, begins (resolveMultiMatches valid s p db mem ke).trace
        = terms (resolveMultiMatches valid s p db mem ke).trace
      ∧ commitsOk (resolveMultiMatches valid s p db mem ke).trace = 0
      ∧ (resolveMultiMatches valid s p db mem ke).trace.count Event.txnAbort
          = begins (resolveMultiMatches valid s p db mem ke).trace) ∧
    (∀ valid s rx ke db mem, begins (resolveRegularExpression valid s rx ke db mem).trace
        = terms (resolveRegularExpression valid s rx ke db mem).trace
      ∧ commitsOk (resolveRegularExpression valid s rx ke db mem).trace = 0
      ∧ (resolveRegularExpression valid s rx ke db mem).trace.count Event.txnAbort
          = begins (resolveRegularExpression valid s rx ke db mem).trace) :=
  ⟨fun valid s k v db =>
      ⟨store_balance valid s k v db, store_le_one valid s k v db,
        (store_mode valid s k v db).1, (store_mode valid s k v db).2⟩,
    store_commit_on_success,
    fun valid s k v db =>
      ⟨storeOrUpdateFirst_balance valid s k v db,
        storeOrUpdateFirst_le_one valid s k v db,
        (storeOrUpdateFirst_mode valid s k v db).1,
        (storeOrUpdateFirst_mode valid s k v db).2⟩,
    storeOrUpdateFirst_commit_on_success,
    fun valid s k v db =>
      ⟨updateFirst_balance valid s k v db, updateFirst_le_one valid s k v db,
        (updateFirst_mode valid s k v db).1,
        (updateFirst_mode valid s k v db).2⟩,
    fun k v v0 db hg => updateFirst_commit_on_success k v v0 db hg,
    fun valid s k db =>
      ⟨del_balance valid s k db, del_le_one valid s k db,
        (del_mode valid s k db).1, (del_mode valid s k db).2⟩,
    fun k v0 db hg => del_commit_on_success k v0 db hg,
    fun valid s k db =>
      ⟨(resolveFirst_readonly valid s k db).1,
        (resolveFirst_readonly valid s k db).2.2.1,
        (resolveFirst_readonly valid s k db).2.2.2⟩,
    fun valid s k db =>
      ⟨(resolveSingleMatch_readonly valid s k db).1,
        (resolveSingleMatch_readonly valid s k db).2.2.1,
        (resolveSingleMatch_readonly valid s k db).2.2.2⟩,
    fun valid s p db mem ke =>
      ⟨(resolveMultiMatches_readonly valid s p db mem ke).1,
        (resolveMultiMatches_readonly valid s p db mem ke).2.2.1,
        (resolveMultiMatches_readonly valid s p db mem ke).2.2.2⟩,
    fun valid s rx ke db mem =>
      ⟨(resolveRegularExpression_readonly valid s rx ke db mem).1,
        (resolveRegularExpression_readonly valid s rx ke db mem).2.2.1,
        (resolveRegularExpression_readonly valid s rx ke db mem).2.2.2⟩⟩

/-- Witness for claim C3's theorem at a concrete input: on the one-record
table under key "a", del's success path commits exactly once. -/
theorem txn_terminated_once_wit :
    dbGet [97] [⟨[97], [49]⟩] = some [49] ∧
    commitsOk (del true allOk [97] [⟨[97], [49]⟩]).trace = 1 :=
  ⟨rfl, txn_terminated_once.2.2.2.2.2.2.2.1 [97] [49] [⟨[97], [49]⟩] rfl⟩

/-- Claim C10: resolveMultiMatches (resolveByPrefix) never consults its
exclusions argument: the whole outcome is identical for any two exclusion
predicates, and concretely a key the exclusion predicate omits still
appears in the prefix result. -/
theorem resolveByPrefix_ignores_exclusions :
    (∀ valid s p db mem (ke kf : List Nat → Bool),
      resolveMultiMatches valid s p db mem ke
        = resolveMultiMatches valid s p db mem kf) ∧
    (resolveMultiMatches true allOk [97] [⟨[97], [49]⟩] (fun _ => [])
        (fun k => k == [97])).ret = [([97], [49])] ∧
    ((fun k : List Nat => k == [97]) [97]) = true :=
  ⟨fun _ _ _ _ _ _ _ => rfl, rfl, rfl⟩

/-- Claim C7: store(k, v) on a previously absent key followed by
resolveFirst(k) yields v; store never removes existing records; and
repeated stores under the same key accumulate both values as duplicates
of that key. -/
theorem store_resolveFirst_accumulate (db : Db) (k v v1 v2 : List Nat)
    (habs : dbGet k db = none) :
    (resolveFirst true allOk k (store true allOk k v db).db).ret = some v ∧
    (∀ r ∈ db, r ∈ (store true allOk k v db).db) ∧
    Entry.mk k v1 ∈ (store true allOk k v2 (store true allOk k v1 db).db).db ∧
    Entry.mk k v2 ∈ (store true allOk k v2 (store true allOk k v1 db).db).db := by
  refine ⟨?_, ?_, ?_, ?_⟩
  · show dbGet k (dbPut k v db) = some v
    exact dbGet_dbPut_of_absent k v db habs
  · intro r hr
    show r ∈ dbPut k v db
    exact mem_dbPut_of_mem k v r db hr
  · show Entry.mk k v1 ∈ dbPut k v2 (dbPut k v1 db)
    exact mem_dbPut_of_mem k v2 (Entry.mk k v1) (dbPut k v1 db)
      (self_mem_dbPut k v1 db)
  · show Entry.mk k v2 ∈ dbPut k v2 (dbPut k v1 db)
    exact self_mem_dbPut k v2 (dbPut k v1 db)

/-- Witness for claim C7's theorem at a concrete input: the empty table,
key "a" and value "1". -/
theorem store_resolveFirst_accumulate_wit :
    dbGet [97] ([] : Db) = none ∧
    (resolveFirst true allOk [97] (store true allOk [97] [49] []).db).ret
      = some [49] :=
  ⟨rfl, (store_resolveFirst_accumulate [] [97] [49] [49] [50] rfl).1⟩

/-- Claim C1 counterexample: with a valid environment and a failing
insert step, storeOrUpdateFirst aborts (nothing is committed) yet still
returns true, so the returned boolean is not "true iff the sequence
succeeded". -/
theorem replaceFirst_returnFlag_cex :
    (storeOrUpdateFirst true ⟨true, true, false, true, true⟩ [97] [49] []).ret
        = true ∧
    committed (storeOrUpdateFirst true ⟨true, true, false, true, true⟩
        [97] [49] []).trace = false ∧
    (storeOrUpdateFirst true ⟨true, true, false, true, true⟩ [97] [49] []).trace
      = [Event.txnBegin, Event.txnAbort] :=
  ⟨rfl, rfl, rfl⟩

/-- Claim C1 (amended): updateFirst returns true iff the
begin/lookup/delete/insert/commit sequence committed, but
storeOrUpdateFirst returns true unconditionally; in both variants any
intermediate failure leaves the prior table unchanged and every begun
transaction is terminated exactly once. -/
theorem replaceFirst_returnFlag_amended :
    (∀ valid s k v db, (updateFirst valid s k v db).ret
        = committed (updateFirst valid s k v db).trace) ∧
    (∀ valid s k v db, (storeOrUpdateFirst valid s k v db).ret = true) ∧
    (∀ valid s k v db,
      committed (storeOrUpdateFirst valid s k v db).trace = false →
      (storeOrUpdateFirst valid s k v db).db = db) ∧
    (∀ valid s k v db, committed (updateFirst valid s k v db).trace = false →
      (updateFirst valid s k v db).db = db) ∧
    (∀ valid s k v db, begins (storeOrUpdateFirst valid s k v db).trace
        = terms (storeOrUpdateFirst valid s k v db).trace) ∧
    (∀ valid s k v db, begins (updateFirst valid s k v db).trace
        = terms (updateFirst valid s k v db).trace) :=
  ⟨updateFirst_ret_eq_committed, storeOrUpdateFirst_ret,
    storeOrUpdateFirst_db_of_not_committed, updateFirst_db_of_not_committed,
    storeOrUpdateFirst_balance, updateFirst_balance⟩

/-- Witness for claim C1's amended theorem at a concrete input: a failing
delete step in updateFirst leaves the one-record table unchanged. -/
theorem replaceFirst_returnFlag_amended_wit :
    committed (updateFirst true ⟨true, false, true, true, true⟩ [97] [49]
        [⟨[97], [50]⟩]).trace = false ∧
    (updateFirst true ⟨true, false, true, true, true⟩ [97] [49]
        [⟨[97], [50]⟩]).db = [⟨[97], [50]⟩] :=
  ⟨rfl, replaceFirst_returnFlag_amended.2.2.2.1 true
    ⟨true, false, true, true, true⟩ [97] [49] [⟨[97], [50]⟩] rfl⟩

/-- Claim C4 counterexample: store is void, so its return value after a
run in which every engine step failed is indistinguishable from its
return value after a fully successful run - the failure is not reported
to the caller. -/
theorem store_voidReport_cex :
    (store false allOk [97] [49] []).ret = (store true allOk [97] [49] []).ret ∧
    committed (store false allOk [97] [49] []).trace = false ∧
    committed (store true allOk [97] [49] []).trace = true :=
  ⟨rfl, rfl, rfl⟩

/-- Claim C4 (amended): if any engine step of store fails, the
transaction is terminated (aborted, or freed by the failed commit) and no
partial insert is visible - the table is exactly the prior table; on a
committed run the table is the prior table plus the inserted record; the
failure status is consumed internally, store returning void and raising
nothing. -/
theorem store_failure_amended :
    (∀ valid s k v db, committed (store valid s k v db).trace = false →
      (store valid s k v db).db = db) ∧
    (∀ valid s k v db, committed (store valid s k v db).trace = true →
      (store valid s k v db).db = dbPut k v db) ∧
    (∀ valid s k v db, begins (store valid s k v db).trace
        = terms (store valid s k v db).trace) ∧
    (∀ valid s k v db, (store valid s k v db).ret = ()) :=
  ⟨store_db_of_not_committed, store_db_of_committed, store_balance,
    fun _ _ _ _ _ => rfl⟩

/-- Witness for claim C4's amended theorem at a concrete input: a failing
insert step leaves the empty table unchanged. -/
theorem store_failure_amended_wit :
    committed (store true ⟨true, true, false, true, true⟩ [97] [49] []).trace
        = false ∧
    (store true ⟨true, true, false, true, true⟩ [97] [49] []).db = [] :=
  ⟨rfl, store_failure_amended.1 true ⟨true, true, false, true, true⟩
    [97] [49] [] rfl⟩

/-- Claim C2 counterexample: with records ("a","1") and ("b","2") stored,
resolveSingleMatch("b") returns the value "1" labelled "b", while the
duplicate set of "b" is exactly the one-element list ["2"] - the cursor
loop never positions at the requested key. -/
theorem resolveDuplicates_firstKey_cex :
    (resolveSingleMatch true allOk [98] [⟨[97], [49]⟩, ⟨[98], [50]⟩]).ret
        = [([98], [49])] ∧
    dupSet [98] [⟨[97], [49]⟩, ⟨[98], [50]⟩] = [[50]] :=
  ⟨rfl, rfl⟩

/-- Claim C2 (amended): resolveSingleMatch ignores the requested key when
walking (the first MDB_NEXT_DUP on the fresh cursor falls back to the
table's first record): it returns the duplicate set of the table's first
key, each value labelled with the requested key, so the returned values
do not depend on the requested key at all; in the spec's scenario (only
key "a" stored, values "1" and "2") it does return both values. -/
theorem resolveDuplicates_firstKey_amended :
    (∀ var db, (resolveSingleMatch true allOk var db).ret
        = (firstDupValues db).map fun v => (var, v)) ∧
    (∀ var varB db,
      ((resolveSingleMatch true allOk var db).ret).map Prod.snd
        = ((resolveSingleMatch true allOk varB db).ret).map Prod.snd) ∧
    (resolveSingleMatch true allOk [97]
        (store true allOk [97] [50] (store true allOk [97] [49] []).db).db).ret
      = [([97], [49]), ([97], [50])] := by
  have h1 : ∀ (var : List Nat) (db : Db),
      ((resolveSingleMatch true allOk var db).ret).map Prod.snd
        = firstDupValues db := by
    intro var db
    show (((firstDupValues db).map fun v => (var, v)).map Prod.snd)
      = firstDupValues db
    rw [List.map_map]
    simp
  exact ⟨fun var db => rfl, fun var varB db => (h1 var db).trans (h1 varB db).symm,
    rfl⟩

/-- Claim C6 counterexample: with duplicates ("a","1") and ("a","2")
stored, del("a") removes only the record found by the lookup, and
resolveFirst("a") afterwards yields "2", not absent. -/
theorem delete_thenAbsent_cex :
    (resolveFirst true allOk [97]
        (del true allOk [97] [⟨[97], [49]⟩, ⟨[97], [50]⟩]).db).ret
      = some [50] := rfl

/-- Claim C6 (amended): del removes only the single record found by the
lookup, so when the key has at most one stored value del(k) followed by
resolveFirst(k) yields absent; and del(k) on an absent key leaves the
table unchanged - the lookup miss is treated as nothing-to-delete, the
read-write transaction is simply aborted, and the call returns normally. -/
theorem delete_thenAbsent_amended (db : Db) (k : List Nat)
    (hc : (dupSet k db).length ≤ 1) :
    (resolveFirst true allOk k (del true allOk k db).db).ret = none ∧
    (dbGet k db = none →
      (del true allOk k db).db = db ∧
      (del true allOk k db).trace = [Event.txnBegin, Event.txnAbort]) := by
  constructor
  · show dbGet k (del true allOk k db).db = none
    cases hg : dbGet k db with
    | none =>
      have hd : (del true allOk k db).db = db := by
        simp [del, txnBegin, allOk, hg]
      rw [hd]
      exact hg
    | some v0 =>
      have hd : (del true allOk k db).db = dbDel k v0 db := by
        simp [del, txnBegin, allOk, hg]
      rw [hd]
      exact dbGet_dbDel_of_le_one k v0 db hg (by simpa [dupSet] using hc)
  · intro hg
    constructor <;> simp [del, txnBegin, allOk, hg]

/-- Witness for claim C6's amended theorem at a concrete input: a
one-record table under key "a". -/
theorem delete_thenAbsent_amended_wit :
    (dupSet [97] [⟨[97], [49]⟩]).length ≤ 1 ∧
    (resolveFirst true allOk [97] (del true allOk [97] [⟨[97], [49]⟩]).db).ret
      = none :=
  ⟨by decide, (delete_thenAbsent_amended [⟨[97], [49]⟩] [97] (by decide)).1⟩

/-- Claim C5 counterexample: with the prefix bytes "a NUL b" and the
single stored key "a NUL c", strncmp stops at the equal NUL bytes and
reports a match, so the record is returned although its key does not
start with the prefix byte-for-byte. -/
theorem resolveByPrefix_strncmp_cex :
    (resolveMultiMatches true allOk [97, 0, 98] [⟨[97, 0, 99], [49]⟩]
        (fun _ => []) (fun _ => false)).ret = [([97, 0, 99], [49])] ∧
    startsWith [97, 0, 98] [97, 0, 99] = false :=
  ⟨rfl, rfl⟩

/-- Claim C5 (amended): the prefix test of resolveMultiMatches is C
strncmp of the prefix's C string against the raw key bytes, so a NUL byte
terminates the comparison and a stored key shorter than the prefix is
compared beyond its end against the memory that follows it; for a prefix
holding no NUL byte, over tables in which no stored key is a proper
prefix of that prefix, the result is exactly the records whose key starts
with the prefix byte-for-byte (in reverse scan order); for the empty
prefix the result is every stored record exactly once. -/
theorem resolveByPrefix_amended (p : List Nat) (db : Db)
    (mem : Nat → List Nat) (ke : List Nat → Bool)
    (hp : ∀ b ∈ p, b ≠ 0)
    (hdb : ∀ r ∈ db, ¬ (startsWith r.key p = true ∧ r.key.length < p.length)) :
    (resolveMultiMatches true allOk p db mem ke).ret
      = ((db.filter fun r => startsWith p r.key).map
          fun r => (r.key, r.value)).reverse ∧
    (resolveMultiMatches true allOk [] db mem ke).ret
      = (db.map fun r => (r.key, r.value)).reverse := by
  constructor
  · by_cases hp0 : p = []
    · subst hp0
      show (db.map fun r => (r.key, r.value)).reverse
        = ((db.filter fun r => startsWith [] r.key).map
            fun r => (r.key, r.value)).reverse
      simp [startsWith]
    · have hl : ¬ p.length = 0 := by
        simpa [List.length_eq_zero] using hp0
      have hret : (resolveMultiMatches true allOk p db mem ke).ret
          = (scanKeys p mem 0 db).reverse := by
        simp [resolveMultiMatches, txnBegin, allOk, hl]
      rw [hret, scanKeys_eq_filter p mem hp db 0 hdb]
  · rfl

/-- Witness for claim C5's amended theorem at a concrete input: prefix
"a" over the table with keys "ab" and "b". -/
theorem resolveByPrefix_amended_wit :
    (∀ b ∈ [97], b ≠ (0 : Nat)) ∧
    (resolveMultiMatches true allOk [97] [⟨[97, 98], [49]⟩, ⟨[98], [50]⟩]
        (fun _ => []) (fun _ => false)).ret = [([97, 98], [49])] :=
  ⟨by decide,
    (resolveByPrefix_amended [97] [⟨[97, 98], [49]⟩, ⟨[98], [50]⟩]
      (fun _ => []) (fun _ => false) (by decide) (by decide)).1⟩

/-- Claim C8 counterexample: the stored key "a NUL b" reaches the regex
as the C string "a"; with a pattern matching exactly "a" the record is
returned although its actual key does not match that pattern. -/
theorem resolveByPattern_cstr_cex :
    (resolveRegularExpression true allOk (fun k => k == [97]) (fun _ => false)
        [⟨[97, 0, 98], [49]⟩] (fun _ => [])).ret = [([97, 0, 98], [49])] ∧
    ((fun k : List Nat => k == [97]) [97, 0, 98]) = false :=
  ⟨rfl, rfl⟩

/-- Claim C8 (amended): resolveRegularExpression applies the pattern to
the key read as a NUL-terminated C string, not to the length-delimited
key itself; a key the exclusion predicate omits never appears in the
result; and for stored keys that hold no NUL byte and are immediately
followed in memory by a NUL byte, the result is exactly the records whose
key matches the pattern and is not excluded (in reverse scan order). -/
theorem resolveByPattern_amended :
    (∀ (valid : Bool) (s : Sched) (rx ke : List Nat → Bool) (db : Db)
        (mem : Nat → List Nat),
      ∀ e ∈ (resolveRegularExpression valid s rx ke db mem).ret,
        ke e.1 = false) ∧
    (∀ (rx ke : List Nat → Bool) (db : Db) (mem : Nat → List Nat),
      (∀ j, (mem j).headD 0 = 0) → (∀ r ∈ db, (0 : Nat) ∉ r.key) →
      (resolveRegularExpression true allOk rx ke db mem).ret
        = ((db.filter fun r => rx r.key && ! ke r.key).map
            fun r => (r.key, r.value)).reverse) := by
  constructor
  · intro valid s rx ke db mem e he
    obtain ⟨b, d, pu, c, cu⟩ := s
    revert he
    cases valid <;> cases b <;> cases cu <;> intro he <;>
      first
      | exact absurd he (List.not_mem_nil e)
      | exact scanRegex_excluded rx ke mem db 0 e
          (List.mem_reverse.mp
            (show e ∈ (scanRegex rx ke mem 0 db).reverse from he))
  · intro rx ke db mem hm hdb
    show (scanRegex rx ke mem 0 db).reverse = _
    rw [scanRegex_eq_filter rx ke mem hm db 0 hdb]

/-- Witness for claim C8's amended theorem at concrete inputs: the result
over the table holding the NUL-containing key "a NUL b" contains that
record, and the theorem yields that its key is not excluded; and the key
"a", which matches the pattern but is excluded, is not returned. -/
theorem resolveByPattern_amended_wit :
    (([97, 0, 98], [49]) ∈ (resolveRegularExpression true allOk
        (fun k => k == [97]) (fun k => k == [98]) [⟨[97, 0, 98], [49]⟩]
        (fun _ => [])).ret ∧
      ((fun k : List Nat => k == [98]) [97, 0, 98]) = false) ∧
    (∀ j : Nat, (((fun _ => [0]) : Nat → List Nat) j).headD 0 = 0) ∧
    (resolveRegularExpression true allOk (fun k => k == [97]) (fun _ => true)
        [⟨[97], [49]⟩] (fun _ => [0])).ret = [] :=
  ⟨⟨by decide,
      resolveByPattern_amended.1 true allOk (fun k => k == [97])
        (fun k => k == [98]) [⟨[97, 0, 98], [49]⟩] (fun _ => [])
        ([97, 0, 98], [49]) (by decide)⟩,
    fun _ => rfl,
    resolveByPattern_amended.2 (fun k => k == [97]) (fun _ => true)
      [⟨[97], [49]⟩] (fun _ => [0]) (fun _ => rfl) (by decide)⟩

/-- Claim C9 counterexample: with an invalid environment,
storeOrUpdateFirst returns true - a success report rather than a failure
or absent/empty result - although no transaction was even attempted. -/
theorem invalidEnv_cex :
    (storeOrUpdateFirst false allOk [97] [49] []).ret = true ∧
    (storeOrUpdateFirst false allOk [97] [49] []).trace = [] :=
  ⟨rfl, rfl⟩

/-- Claim C9 (amended): if the environment fails to open, isValid() is
false, and with an invalid environment every operation returns at once
with the table unchanged and an empty transaction trace (mdb_txn_begin is
never attempted, and the model is total, so nothing terminates the
process); updateFirst reports false and the resolve operations report
absent/empty, while the void operations return nothing and
storeOrUpdateFirst still returns true. -/
theorem invalidEnv_amended (s : Sched) (k v p : List Nat) (db : Db)
    (mem : Nat → List Nat) (rx ke : List Nat → Bool) (rc : Int)
    (hrc : rc ≠ 0) :
    providerValid rc = false ∧
    store false s k v db = ⟨(), db, []⟩ ∧
    storeOrUpdateFirst false s k v db = ⟨true, db, []⟩ ∧
    updateFirst false s k v db = ⟨false, db, []⟩ ∧
    del false s k db = ⟨(), db, []⟩ ∧
    resolveFirst false s k db = ⟨none, db, []⟩ ∧
    resolveSingleMatch false s k db = ⟨[], db, []⟩ ∧
    resolveMultiMatches false s p db mem ke = ⟨[], db, []⟩ ∧
    resolveRegularExpression false s rx ke db mem = ⟨[], db, []⟩ := by
  refine ⟨?_, rfl, rfl, rfl, rfl, rfl, rfl, rfl, rfl⟩
  show (rc == 0) = false
  exact beq_eq_false_iff_ne.mpr hrc

/-- Witness for claim C9's amended theorem at the concrete failing open
status 1. -/
theorem invalidEnv_amended_wit :
    (1 : Int) ≠ 0 ∧ providerValid 1 = false :=
  ⟨by decide,
    (invalidEnv_amended allOk [97] [49] [97] [] (fun _ => [])
      (fun _ => false) (fun _ => false) 1 (by decide)).1⟩

end ModsecLMDB
